import Mathlib

/-!
Shallow embedding of the two scrapers of this repository
(src/leakixscraper.py and src/scraper.py): the retry/backoff loop of
`WebsiteScraper.get_page`, the paginated run `scrape_search_results`, the
defensive element extraction of `scrape_leakix_homepage` /
`scrape_search_results` / `_extract_details`, the rate-limit retry loop of
`TwitterScraper.search_tweets`, and the empty-input guard of the
`save_to_csv` / `save_to_json` sinks.

Network responses are modelled by oracles (attempt number to outcome), the
values drawn from `random.uniform` by explicit streams of rationals, wall
clock sleeps by events recorded in a trace, and the parsed HTML payloads by
structures holding the text of the optional sub-elements that the Python
code selects.  Python `str.strip()` is modelled by `String.trim`, and
`urllib.parse.urljoin` is kept abstract as a function argument `uj`
because no claim depends on its arithmetic.
-/

namespace LeakIX

/-- Outcome of one `self.session.get` attempt inside `get_page`
(src/leakixscraper.py lines 44-52): a 200 response whose body parses to
`α`, a non-200 status code, or a raised `requests.RequestException`. -/
inductive AttemptResult (α : Type) where
  | success : α → AttemptResult α
  | httpError : Nat → AttemptResult α
  | transportError : AttemptResult α
deriving DecidableEq

/-- Observable events of a run: one network attempt (page tag, attempt
index), one exponential-backoff sleep inside `get_page`, and one
politeness sleep between pages in `scrape_search_results`. -/
inductive Event where
  | fetchAttempt : Nat → Nat → Event
  | backoffSleep : Rat → Event
  | politenessSleep : Rat → Event
deriving DecidableEq

/-- Backoff delay of src/leakixscraper.py line 56:
`sleep_time = 2 ** attempt + random.uniform(0, 1)`, with `j` the value the
uniform sample took. -/
def sleepTime (attempt : Nat) (j : Rat) : Rat :=
  2 ^ attempt + j

/-- The retry loop of `get_page` (src/leakixscraper.py lines 41-60) as
recursion over the iteration list of `for attempt in range(retry_count)`:
return the parsed page on a 200 response; on a failed attempt continue
with the remaining attempts, sleeping `2 ** attempt + uniform(0,1)` first
unless `attempt < retry_count - 1` fails (line 55); return `None` when the
attempts run out.  `resp` is the transport oracle per attempt, `jitter`
the stream of uniform(0,1) samples, `page` only tags the trace events with
which URL is being fetched. -/
def getPageGo {α : Type} (resp : Nat → AttemptResult α) (jitter : Nat → Rat)
    (page retry_count : Nat) : List Nat → Option α × List Event
  | [] => (none, [])
  | attempt :: rest =>
    match resp attempt with
    | AttemptResult.success s => (some s, [Event.fetchAttempt page attempt])
    | AttemptResult.httpError _ =>
      let r := getPageGo resp jitter page retry_count rest
      if attempt < retry_count - 1 then
        (r.1, Event.fetchAttempt page attempt ::
          Event.backoffSleep (sleepTime attempt (jitter attempt)) :: r.2)
      else (r.1, Event.fetchAttempt page attempt :: r.2)
    | AttemptResult.transportError =>
      let r := getPageGo resp jitter page retry_count rest
      if attempt < retry_count - 1 then
        (r.1, Event.fetchAttempt page attempt ::
          Event.backoffSleep (sleepTime attempt (jitter attempt)) :: r.2)
      else (r.1, Event.fetchAttempt page attempt :: r.2)

/-- Entry point of `get_page` with the default `retry_count = 3` of the
source: the loop runs over `range(3)`. -/
def get_page {α : Type} (resp : Nat → AttemptResult α) (jitter : Nat → Rat)
    (page : Nat) : Option α × List Event :=
  getPageGo resp jitter page 3 (List.range 3)

/-- An `<a>` element selected by `select_one`: it may lack the `href`
attribute, in which case the Python subscript raises `KeyError`. -/
structure Anchor where
  href : Option String
deriving DecidableEq

/-- One `div.detail-item` of a search result: the text of its optional
`span.detail-key` and `span.detail-value` children. -/
structure DetailItem where
  key : Option String
  val : Option String
deriving DecidableEq

/-- One `div.search-result` element: texts of the optional sub-elements
that `scrape_search_results` selects, plus its detail items. -/
structure Item where
  title : Option String
  description : Option String
  anchor : Option Anchor
  detailItems : List DetailItem
deriving DecidableEq

/-- One `div.card` of the homepage: texts of the optional sub-elements
that `scrape_leakix_homepage` selects. -/
structure Card where
  title : Option String
  description : Option String
  anchor : Option Anchor
  date : Option String
deriving DecidableEq

/-- The record built per homepage card (src/leakixscraper.py lines 80-85). -/
structure ServiceData where
  title : String
  description : String
  url : Option String
  timestamp : String
deriving DecidableEq

/-- The record built per search-result item (src/leakixscraper.py lines
123-128). -/
structure ResultData where
  title : String
  description : String
  url : Option String
  details : List (String × String)
deriving DecidableEq

/-- Python dict assignment `d[k] = v` on a dict kept as an insertion-order
association list: replace the value when the key is present, append
otherwise. -/
def dictInsert (d : List (String × String)) (k v : String) :
    List (String × String) :=
  if d.any (fun p => p.1 == k) then
    d.map (fun p => if p.1 == k then (k, v) else p)
  else d ++ [(k, v)]

/-- The `_extract_details` loop (src/leakixscraper.py lines 157-170): per
detail item, when both `span.detail-key` and `span.detail-value` are
present, insert the stripped texts; otherwise the item contributes
nothing.  Nothing inside the per-item `try` can raise. -/
def extractDetails (elems : List DetailItem) : List (String × String) :=
  elems.foldl
    (fun details d =>
      match d.key, d.val with
      | some k, some v => dictInsert details k.trim v.trim
      | _, _ => details)
    []

/-- The per-card body of `scrape_leakix_homepage` (src/leakixscraper.py
lines 78-90): each missing sub-element yields the placeholder written in
the source ("N/A", or `None` for the url when no `<a>` is present).  The
one statement that can raise is `card.select_one('a')['href']` when an
anchor is present but has no `href` attribute; the `except` swallows the
error and the card yields no record, which `none` models. -/
def extractCard (uj : String → String → String) (base : String) (card : Card) :
    Option ServiceData :=
  match card.anchor with
  | some a =>
    match a.href with
    | some h =>
      some { title := (card.title.map String.trim).getD "N/A"
             description := (card.description.map String.trim).getD "N/A"
             url := some (uj base h)
             timestamp := (card.date.map String.trim).getD "N/A" }
    | none => none
  | none =>
    some { title := (card.title.map String.trim).getD "N/A"
           description := (card.description.map String.trim).getD "N/A"
           url := none
           timestamp := (card.date.map String.trim).getD "N/A" }

/-- The per-item body of `scrape_search_results` (src/leakixscraper.py
lines 120-133), structured exactly like `extractCard`: placeholders for
missing sub-elements, and a skipped item (`none`) exactly when the present
anchor lacks `href` and the subscript raises. -/
def extractItem (uj : String → String → String) (base : String) (it : Item) :
    Option ResultData :=
  match it.anchor with
  | some a =>
    match a.href with
    | some h =>
      some { title := (it.title.map String.trim).getD "N/A"
             description := (it.description.map String.trim).getD "N/A"
             url := some (uj base h)
             details := extractDetails it.detailItems }
    | none => none
  | none =>
    some { title := (it.title.map String.trim).getD "N/A"
           description := (it.description.map String.trim).getD "N/A"
           url := none
           details := extractDetails it.detailItems }

/-- Decision of whether processing a card raises inside its `try` block:
true exactly when an anchor element is present without an `href`
attribute. -/
def cardRaises (c : Card) : Bool :=
  match c.anchor with
  | some a => a.href.isNone
  | none => false

/-- Decision of whether processing a search-result item raises, same
criterion as `cardRaises`. -/
def itemRaises (it : Item) : Bool :=
  match it.anchor with
  | some a => a.href.isNone
  | none => false

/-- `scrape_leakix_homepage` (src/leakixscraper.py lines 62-92): fetch the
homepage with `get_page` (payload modelled as the list of `div.card`
elements), return `[]` when the fetch failed, otherwise the records of the
cards whose processing did not raise. -/
def scrape_leakix_homepage (uj : String → String → String) (base : String)
    (resp : Nat → AttemptResult (List Card)) (jitter : Nat → Rat) :
    List ServiceData :=
  match (get_page resp jitter 0).1 with
  | none => []
  | some cards => cards.filterMap (extractCard uj base)

/-- The `for page in range(1, pages + 1)` loop of `scrape_search_results`
(src/leakixscraper.py lines 104-141) as recursion over its iteration
list.  `resp` gives the transport oracle of each page, `jitter` the
uniform(0,1) stream of each page's `get_page`, `prand` the uniform(2,5)
politeness sample drawn after page `page`.  Per page: fetch; break
returning the accumulator when the fetch failed or the selected result
items are empty; otherwise append the records of the items whose
processing did not raise, then continue with the remaining pages, sleeping
the politeness delay first when `page < pages` (line 136). -/
def scrapeSearchGo (uj : String → String → String) (base : String)
    (resp : Nat → Nat → AttemptResult (List Item)) (jitter : Nat → Nat → Rat)
    (prand : Nat → Rat) (pages : Nat) :
    List Nat → List ResultData → List ResultData × List Event
  | [], acc => (acc, [])
  | page :: rest, acc =>
    let gp := get_page (resp page) (jitter page) page
    match gp.1 with
    | none => (acc, gp.2)
    | some items =>
      if items.isEmpty then (acc, gp.2)
      else
        let acc2 := acc ++ items.filterMap (extractItem uj base)
        let r := scrapeSearchGo uj base resp jitter prand pages rest acc2
        if page < pages then
          (r.1, gp.2 ++ Event.politenessSleep (prand page) :: r.2)
        else (r.1, gp.2 ++ r.2)

/-- `scrape_search_results` (src/leakixscraper.py lines 94-141): the page
loop run over `range(1, pages + 1)` with an empty accumulator, paired with
the trace of its fetches and sleeps. -/
def scrape_search_results (uj : String → String → String) (base : String)
    (resp : Nat → Nat → AttemptResult (List Item)) (jitter : Nat → Nat → Rat)
    (prand : Nat → Rat) (pages : Nat) : List ResultData × List Event :=
  scrapeSearchGo uj base resp jitter prand pages (List.range' 1 pages) []

/-- A file system as what each file name currently holds. -/
def FileSystem : Type := String → Option String

/-- `WebsiteScraper.save_to_csv` (src/leakixscraper.py lines 204-217):
`if not data: return` leaves the file system untouched; otherwise the
rendered table is written to `filename`.  `render` stands for the
`pandas.DataFrame(...).to_csv` serialisation. -/
def save_to_csv (render : List ResultData → String) (data : List ResultData)
    (filename : String) (fs : FileSystem) : FileSystem :=
  if data.isEmpty then fs
  else fun f => if f = filename then some (render data) else fs f

/-- `WebsiteScraper.save_to_json` (src/leakixscraper.py lines 219-232),
same empty guard with `json.dump` as the serialiser. -/
def save_to_json (render : List ResultData → String) (data : List ResultData)
    (filename : String) (fs : FileSystem) : FileSystem :=
  if data.isEmpty then fs
  else fun f => if f = filename then some (render data) else fs f

end LeakIX

namespace Twitter

/-- A user object of the API response (the fields `search_tweets`
reads). -/
structure User where
  id : Nat
  name : String
  username : String
  location : Option String
  verified : Bool
deriving DecidableEq

/-- A tweet object of the API response, with the fields `search_tweets`
reads; `public_metrics` is flattened into its four counters. -/
structure Tweet where
  id : Nat
  text : String
  created_at : String
  retweet_count : Nat
  reply_count : Nat
  like_count : Nat
  quote_count : Nat
  lang : String
  author_id : Nat
deriving DecidableEq

/-- The dictionary `tweet_data` built per tweet (src/scraper.py lines
69-87); the five `author_*` keys added when the author lookup hits are
bundled as one optional `User`. -/
structure TweetData where
  id : Nat
  text : String
  created_at : String
  retweet_count : Nat
  reply_count : Nat
  like_count : Nat
  quote_count : Nat
  lang : String
  author : Option User
deriving DecidableEq

/-- Outcome of one `search_recent_tweets` call: a response carrying its
tweets (empty list models a falsy `response.data`) and included users, a
raised `tweepy.TooManyRequests`, or another raised
`tweepy.TweepyException`. -/
inductive Outcome where
  | success : List Tweet → List User → Outcome
  | tooManyRequests : Outcome
  | tweepyError : Outcome
deriving DecidableEq

/-- Which break of the `while` loop ended `search_tweets`: tweets
processed, empty response, sixth consecutive rate limit, other tweepy
error; `exhausted` is the unreachable fall-through of the loop
condition. -/
inductive Status where
  | completed : Status
  | noTweets : Status
  | rateLimitAborted : Status
  | errorAborted : Status
  | exhausted : Status
deriving DecidableEq

/-- Observable events of `search_tweets`: one API call (by index), one
rate-limit sleep of the printed number of seconds. -/
inductive TwEvent where
  | apiCall : Nat → TwEvent
  | rateLimitSleep : Nat → TwEvent
deriving DecidableEq

/-- The user lookup dictionary `{user.id: user for user in ...}`
(src/scraper.py line 65), queried by `tweet.author_id in users`; the API
returns each user once, so first-match lookup models the dict. -/
def lookupUser (users : List User) (uid : Nat) : Option User :=
  users.find? (fun u => u.id == uid)

/-- The per-tweet body of the response processing loop (src/scraper.py
lines 68-89). -/
def processTweet (users : List User) (t : Tweet) : TweetData :=
  { id := t.id
    text := t.text
    created_at := t.created_at
    retweet_count := t.retweet_count
    reply_count := t.reply_count
    like_count := t.like_count
    quote_count := t.quote_count
    lang := t.lang
    author := lookupUser users t.author_id }

/-- The `while retry_count <= max_retries` loop of `search_tweets`
(src/scraper.py lines 47-108), with a structural fuel bound: each loop
iteration either exits or increments `retry_count`, so the loop runs at
most `max_retries + 1` times and the entry point supplies that much fuel;
the fuel-out branch is unreachable from it.  `resp` gives the outcome of
the `call`-th API request.  A response with tweets appends their processed
data and breaks; an empty response breaks; `TooManyRequests` sleeps
`retry_delay` seconds, doubles the delay and retries while
`retry_count < max_retries`, and breaks without sleeping otherwise; any
other tweepy error breaks. -/
def searchTweetsGo (resp : Nat → Outcome) (max_retries : Nat) :
    Nat → Nat → Nat → Nat → List TweetData →
    List TweetData × List TwEvent × Status
  | 0, _, _, _, tweets => (tweets, [], Status.exhausted)
  | fuel + 1, call, retry_count, retry_delay, tweets =>
    if retry_count ≤ max_retries then
      match resp call with
      | Outcome.success data users =>
        if data.isEmpty then (tweets, [TwEvent.apiCall call], Status.noTweets)
        else (tweets ++ data.map (processTweet users),
          [TwEvent.apiCall call], Status.completed)
      | Outcome.tooManyRequests =>
        if retry_count < max_retries then
          let rest := searchTweetsGo resp max_retries fuel (call + 1)
            (retry_count + 1) (retry_delay * 2) tweets
          (rest.1, TwEvent.apiCall call ::
            TwEvent.rateLimitSleep retry_delay :: rest.2.1, rest.2.2)
        else (tweets, [TwEvent.apiCall call], Status.rateLimitAborted)
      | Outcome.tweepyError =>
        (tweets, [TwEvent.apiCall call], Status.errorAborted)
    else (tweets, [], Status.exhausted)

/-- `search_tweets` (src/scraper.py lines 18-108): `max_retries = 5`,
`retry_count = 0`, `retry_delay = 60`, empty tweet list, and fuel
`max_retries + 1 = 6` covering every reachable iteration. -/
def search_tweets (resp : Nat → Outcome) :
    List TweetData × List TwEvent × Status :=
  searchTweetsGo resp 5 6 0 0 60 []

/-- `TwitterScraper.save_to_csv` (src/scraper.py lines 110-123): same
empty guard as the LeakIX sink. -/
def save_to_csv (render : List TweetData → String) (tweets : List TweetData)
    (filename : String) (fs : LeakIX.FileSystem) : LeakIX.FileSystem :=
  if tweets.isEmpty then fs
  else fun f => if f = filename then some (render tweets) else fs f

/-- `TwitterScraper.save_to_json` (src/scraper.py lines 125-138). -/
def save_to_json (render : List TweetData → String) (tweets : List TweetData)
    (filename : String) (fs : LeakIX.FileSystem) : LeakIX.FileSystem :=
  if tweets.isEmpty then fs
  else fun f => if f = filename then some (render tweets) else fs f

end Twitter

/-- A homepage card with every selected sub-element present. -/
def cardFull1 : LeakIX.Card :=
  { title := some "t1", description := some "d1",
    anchor := some { href := some "u1" }, date := some "x1" }

/-- A second full homepage card. -/
def cardFull3 : LeakIX.Card :=
  { title := some "t3", description := some "d3",
    anchor := some { href := some "u3" }, date := some "x3" }

/-- A homepage card with no sub-element at all: whichever field is the
identifying one, this card lacks it. -/
def cardEmpty : LeakIX.Card :=
  { title := none, description := none, anchor := none, date := none }

/-- A homepage card whose anchor element is present but has no `href`
attribute: the only shape whose processing raises and is skipped. -/
def cardBadAnchor : LeakIX.Card :=
  { title := some "t2", description := some "d2",
    anchor := some { href := none }, date := some "x2" }

open LeakIX Twitter

/-! ## Helper lemmas -/

/-- When `f` returns `none` exactly on the elements `p` counts, the kept
results and the count of dropped elements partition the list. -/
theorem length_filterMap_add_countP {α β : Type} (f : α → Option β)
    (p : α → Bool) (h : ∀ x, f x = none ↔ p x = true) (l : List α) :
    (l.filterMap f).length + l.countP p = l.length := by
  induction l with
  | nil => rfl
  | cons x xs ih =>
    cases hx : f x with
    | none =>
      rw [List.filterMap_cons_none hx,
        List.countP_cons_of_pos p xs ((h x).mp hx), List.length_cons]
      omega
    | some b =>
      have hp : ¬ p x = true := fun hc => by
        have hn := (h x).mpr hc
        rw [hn] at hx
        exact Option.noConfusion hx
      rw [List.filterMap_cons_some hx, List.countP_cons_of_neg p xs hp,
        List.length_cons, List.length_cons]
      omega

/-! ## C1 -/

/-- C1 counterexample: a payload of 3 cards where card 2 lacks every
field the extractor selects (in particular its identifying field) still
yields 3 records, not 2: a missing field produces a placeholder value,
not a skip. -/
theorem homepage_missing_fields_card_still_emitted :
    (LeakIX.scrape_leakix_homepage (fun b r => String.append b r)
      "https://leakix.net"
      (fun _ => AttemptResult.success [cardFull1, cardEmpty, cardFull3])
      (fun _ => 0)).length = 3 := rfl

/-- C1 amended: an element missing a selected field is emitted with a
placeholder value for that field; an element is skipped exactly when its
processing raises, which happens exactly when an anchor element is present
without an `href` attribute, and the emitted records plus the skipped
elements then partition the payload; a payload of 3 cards where card 2 has
such an anchor yields exactly 2 records. -/
theorem extractor_placeholder_and_raise_skip (uj : String → String → String)
    (base : String) (jitter : Nat → Rat) :
    (∀ c : Card, extractCard uj base c = none ↔ cardRaises c = true) ∧
    (∀ cards : List Card,
      (cards.filterMap (extractCard uj base)).length + cards.countP cardRaises
        = cards.length) ∧
    (∀ it : Item, extractItem uj base it = none ↔ itemRaises it = true) ∧
    (∀ its : List Item,
      (its.filterMap (extractItem uj base)).length + its.countP itemRaises
        = its.length) ∧
    (LeakIX.scrape_leakix_homepage uj base
      (fun _ => AttemptResult.success [cardFull1, cardBadAnchor, cardFull3])
      jitter).length = 2 := by
  have hcard : ∀ c : Card, extractCard uj base c = none ↔ cardRaises c = true := by
    intro c
    rcases c with ⟨t, d, a, dt⟩
    rcases a with _ | ⟨h⟩
    · simp [extractCard, cardRaises]
    · rcases h with _ | u
      · simp [extractCard, cardRaises, Option.isNone]
      · simp [extractCard, cardRaises, Option.isNone]
  have hitem : ∀ it : Item, extractItem uj base it = none ↔ itemRaises it = true := by
    intro it
    rcases it with ⟨t, d, a, ds⟩
    rcases a with _ | ⟨h⟩
    · simp [extractItem, itemRaises]
    · rcases h with _ | u
      · simp [extractItem, itemRaises, Option.isNone]
      · simp [extractItem, itemRaises, Option.isNone]
  refine ⟨hcard, fun cards => ?_, hitem, fun its => ?_, rfl⟩
  · exact length_filterMap_add_countP _ _ hcard cards
  · exact length_filterMap_add_countP _ _ hitem its

/-! ## C2 -/

/-- C2 amended (interval part, which holds): for every attempt `a` and
every value `j` that `random.uniform(0, 1)` can take, the backoff delay
lies in the half-open interval from `2 ^ a` to `2 ^ a + 1` (base 1). -/
theorem backoff_delay_unit_interval (a : Nat) (j : Rat)
    (h0 : 0 ≤ j) (h1 : j < 1) :
    2 ^ a ≤ sleepTime a j ∧ sleepTime a j < 2 ^ a + 1 := by
  unfold LeakIX.sleepTime
  constructor
  · linarith
  · linarith

/-- C2 witness: the interval bounds at attempt 4 with jitter 1/3. -/
theorem backoff_delay_unit_interval_witness :
    2 ^ 4 ≤ LeakIX.sleepTime 4 (1 / 3) ∧
      LeakIX.sleepTime 4 (1 / 3) < 2 ^ 4 + 1 :=
  backoff_delay_unit_interval 4 (1 / 3) (by norm_num) (by norm_num)

/-- C2 counterexample (cap part): `get_page` applies no `max_delay` cap —
no bound exceeds every delay, already at jitter 0, so "the delay never
exceeds max_delay" is false for every possible `max_delay`. -/
theorem backoff_delay_unbounded :
    ¬ ∃ M : Rat, ∀ a : Nat, LeakIX.sleepTime a 0 ≤ M := by
  rintro ⟨M, hM⟩
  obtain ⟨n, hn⟩ := exists_nat_gt M
  have h1 : (n : Rat) < 2 ^ n := by
    have h2 := Nat.lt_two_pow n
    exact_mod_cast h2
  have h3 := hM n
  unfold LeakIX.sleepTime at h3
  linarith

/-! ## C6 -/

/-- C6: with `retry_count = 3`, when the transport raises on the first
two attempts and the third attempt returns a 200 response, `get_page`
performs exactly two backoff sleeps (one after each failure) and returns
the third attempt's parsed payload. -/
theorem transport_two_failures_two_sleeps_then_success {α : Type}
    (resp : Nat → AttemptResult α) (jitter : Nat → Rat) (page : Nat) (s : α)
    (h0 : resp 0 = AttemptResult.transportError)
    (h1 : resp 1 = AttemptResult.transportError)
    (h2 : resp 2 = AttemptResult.success s) :
    get_page resp jitter page =
      (some s,
       [Event.fetchAttempt page 0, Event.backoffSleep (sleepTime 0 (jitter 0)),
        Event.fetchAttempt page 1, Event.backoffSleep (sleepTime 1 (jitter 1)),
        Event.fetchAttempt page 2]) := by
  have hr : List.range 3 = [0, 1, 2] := rfl
  simp [get_page, hr, getPageGo, h0, h1, h2]

/-- C6 witness: a transport oracle failing twice then succeeding with
payload 42, at zero jitter. -/
theorem transport_two_failures_two_sleeps_then_success_witness :
    LeakIX.get_page
      (fun a => if a < 2 then AttemptResult.transportError
        else AttemptResult.success 42) (fun _ => 0) 7 =
      (some 42,
       [Event.fetchAttempt 7 0, Event.backoffSleep (sleepTime 0 0),
        Event.fetchAttempt 7 1, Event.backoffSleep (sleepTime 1 0),
        Event.fetchAttempt 7 2]) :=
  transport_two_failures_two_sleeps_then_success _ _ 7 42 rfl rfl rfl

/-! ## C9 -/

/-- C9: called with an empty record list, each of the four save functions
returns without touching the file system: the state named by `filename`
(and every other name) is unchanged. -/
theorem save_empty_list_leaves_filesystem_unchanged
    (renderLc renderLj : List ResultData → String)
    (renderTc renderTj : List TweetData → String)
    (filename : String) (fs : FileSystem) :
    LeakIX.save_to_csv renderLc [] filename fs = fs ∧
    LeakIX.save_to_json renderLj [] filename fs = fs ∧
    Twitter.save_to_csv renderTc [] filename fs = fs ∧
    Twitter.save_to_json renderTj [] filename fs = fs :=
  ⟨rfl, rfl, rfl, rfl⟩

/-! ## C3 -/

/-- Whenever the tweet loop ends in one of the two abort breaks, it
returns exactly the tweets accumulated on entry. -/
theorem searchTweetsGo_abort_keeps_tweets (resp : Nat → Outcome) (mr : Nat) :
    ∀ (fuel call rc rd : Nat) (tweets : List TweetData),
      (searchTweetsGo resp mr fuel call rc rd tweets).2.2
          = Status.rateLimitAborted ∨
        (searchTweetsGo resp mr fuel call rc rd tweets).2.2
          = Status.errorAborted →
      (searchTweetsGo resp mr fuel call rc rd tweets).1 = tweets := by
  intro fuel
  induction fuel with
  | zero => intro call rc rd tweets _; rfl
  | succ fuel ih =>
    intro call rc rd tweets h
    by_cases hrc : rc ≤ mr
    · cases hr : resp call with
      | success data users =>
        by_cases hd : data.isEmpty
        · simp [searchTweetsGo, hrc, hr, hd]
        · simp [searchTweetsGo, hrc, hr, hd] at h
      | tooManyRequests =>
        by_cases hlt : rc < mr
        · simp only [searchTweetsGo, hrc, hr, hlt, if_true, if_pos] at h ⊢
          exact ih (call + 1) (rc + 1) (rd * 2) tweets h
        · simp [searchTweetsGo, hrc, hr, hlt]
      | tweepyError => simp [searchTweetsGo, hrc, hr]
    · simp [searchTweetsGo, hrc]

/-- A run whose first `k` calls are rate-limited and whose call `k`
returns tweets: each signal sleeps the doubling delay and re-attempts,
call `k` appends the processed tweets and completes. -/
theorem searchTweetsGo_rate_limit_run (resp : Nat → Outcome) (k : Nat)
    (data : List Tweet) (users : List User) (hk : k ≤ 5)
    (hrl : ∀ i, i < k → resp i = Outcome.tooManyRequests)
    (hsucc : resp k = Outcome.success data users) (hne : data ≠ []) :
    ∀ n j tweets, j + n = k →
      searchTweetsGo resp 5 (6 - j) j j (60 * 2 ^ j) tweets =
        (tweets ++ data.map (processTweet users),
         (List.range' j n).flatMap
           (fun i => [TwEvent.apiCall i, TwEvent.rateLimitSleep (60 * 2 ^ i)])
           ++ [TwEvent.apiCall k],
         Status.completed) := by
  intro n
  induction n with
  | zero =>
    intro j tweets hj
    have hjk : j = k := by omega
    subst hjk
    obtain ⟨m, hm⟩ : ∃ m, 6 - j = m + 1 := ⟨5 - j, by omega⟩
    rw [hm]
    have hd : data.isEmpty = false := List.isEmpty_eq_false.mpr hne
    simp [searchTweetsGo, hk, hsucc, hd]
  | succ n ih =>
    intro j tweets hj
    have hjk : j < k := by omega
    obtain ⟨m, hm⟩ : ∃ m, 6 - j = m + 1 := ⟨5 - j, by omega⟩
    have hm2 : m = 6 - (j + 1) := by omega
    rw [hm]
    have hj5 : j ≤ 5 := by omega
    have hjlt : j < 5 := by omega
    have hdelay : 60 * 2 ^ j * 2 = 60 * 2 ^ (j + 1) := by ring
    have hrec := ih (j + 1) tweets (by omega)
    rw [hm2] at *
    simp only [searchTweetsGo, hj5, if_true, if_pos, hrl j hjk, hjlt,
      hdelay, hrec, List.range'_succ]
    simp

/-- A run of six consecutive rate-limit signals: five sleeps with
doubling delays, then the sixth signal aborts without sleeping. -/
theorem searchTweetsGo_rate_limit_abort_run (resp : Nat → Outcome)
    (hrl : ∀ i, i < 6 → resp i = Outcome.tooManyRequests) :
    ∀ n j tweets, j + n = 5 →
      searchTweetsGo resp 5 (6 - j) j j (60 * 2 ^ j) tweets =
        (tweets,
         (List.range' j n).flatMap
           (fun i => [TwEvent.apiCall i, TwEvent.rateLimitSleep (60 * 2 ^ i)])
           ++ [TwEvent.apiCall 5],
         Status.rateLimitAborted) := by
  intro n
  induction n with
  | zero =>
    intro j tweets hj
    have hjk : j = 5 := by omega
    subst hjk
    simp [searchTweetsGo, hrl 5 (by omega), show (6 : Nat) - 5 = 0 + 1 from rfl]
  | succ n ih =>
    intro j tweets hj
    obtain ⟨m, hm⟩ : ∃ m, 6 - j = m + 1 := ⟨5 - j, by omega⟩
    have hm2 : m = 6 - (j + 1) := by omega
    rw [hm]
    have hj5 : j ≤ 5 := by omega
    have hjlt : j < 5 := by omega
    have hdelay : 60 * 2 ^ j * 2 = 60 * 2 ^ (j + 1) := by ring
    have hrec := ih (j + 1) tweets (by omega)
    rw [hm2] at *
    simp only [searchTweetsGo, hj5, if_true, if_pos, hrl j (by omega), hjlt,
      hdelay, hrec, List.range'_succ]
    simp

/-- C3: with `max_retries = 5`, six consecutive rate-limit signals give
five sleep-then-retry waits (60, 120, 240, 480, 960 seconds) and the sixth
signal ends the loop without sleeping, returning nothing; and any run of
`k ≤ 5` consecutive rate-limit signals followed by a response with tweets
gives one wait per signal and then completes with that response's
records. -/
theorem rate_limit_five_waits_sixth_aborts (resp resp2 : Nat → Outcome)
    (k : Nat) (data : List Tweet) (users : List User)
    (h6 : ∀ i, i < 6 → resp i = Outcome.tooManyRequests)
    (hk : k ≤ 5)
    (hrl : ∀ i, i < k → resp2 i = Outcome.tooManyRequests)
    (hsucc : resp2 k = Outcome.success data users) (hne : data ≠ []) :
    Twitter.search_tweets resp =
      ([],
       [TwEvent.apiCall 0, TwEvent.rateLimitSleep 60,
        TwEvent.apiCall 1, TwEvent.rateLimitSleep 120,
        TwEvent.apiCall 2, TwEvent.rateLimitSleep 240,
        TwEvent.apiCall 3, TwEvent.rateLimitSleep 480,
        TwEvent.apiCall 4, TwEvent.rateLimitSleep 960,
        TwEvent.apiCall 5],
       Status.rateLimitAborted) ∧
    Twitter.search_tweets resp2 =
      (data.map (processTweet users),
       (List.range' 0 k).flatMap
         (fun i => [TwEvent.apiCall i, TwEvent.rateLimitSleep (60 * 2 ^ i)])
         ++ [TwEvent.apiCall k],
       Status.completed) := by
  constructor
  · have h := searchTweetsGo_rate_limit_abort_run resp h6 5 0 [] (by omega)
    simpa [Twitter.search_tweets] using h
  · have h := searchTweetsGo_rate_limit_run resp2 k data users hk hrl hsucc
      hne k 0 [] (by omega)
    simpa [Twitter.search_tweets] using h

/-- C3 witness: five rate limits then a one-tweet response completes with
five waits; six rate limits abort. -/
theorem rate_limit_five_waits_sixth_aborts_witness :
    Twitter.search_tweets (fun _ => Outcome.tooManyRequests) =
      ([],
       [TwEvent.apiCall 0, TwEvent.rateLimitSleep 60,
        TwEvent.apiCall 1, TwEvent.rateLimitSleep 120,
        TwEvent.apiCall 2, TwEvent.rateLimitSleep 240,
        TwEvent.apiCall 3, TwEvent.rateLimitSleep 480,
        TwEvent.apiCall 4, TwEvent.rateLimitSleep 960,
        TwEvent.apiCall 5],
       Status.rateLimitAborted) ∧
    Twitter.search_tweets
      (fun c => if c < 5 then Outcome.tooManyRequests
        else Outcome.success [⟨1, "hi", "now", 2, 3, 4, 5, "en", 9⟩]
          [⟨9, "n", "u", none, true⟩]) =
      (([⟨1, "hi", "now", 2, 3, 4, 5, "en", 9⟩] :
          List Tweet).map (processTweet [⟨9, "n", "u", none, true⟩]),
       (List.range' 0 5).flatMap
         (fun i => [TwEvent.apiCall i, TwEvent.rateLimitSleep (60 * 2 ^ i)])
         ++ [TwEvent.apiCall 5],
       Status.completed) :=
  rate_limit_five_waits_sixth_aborts
    (fun _ => Outcome.tooManyRequests)
    (fun c => if c < 5 then Outcome.tooManyRequests
      else Outcome.success [⟨1, "hi", "now", 2, 3, 4, 5, "en", 9⟩]
        [⟨9, "n", "u", none, true⟩])
    5 [⟨1, "hi", "now", 2, 3, 4, 5, "en", 9⟩] [⟨9, "n", "u", none, true⟩]
    (fun _ _ => rfl) (Nat.le_refl 5) (fun _ hi => if_pos hi) rfl
    (List.cons_ne_nil _ _)

/-! ## Pagination helpers -/

/-- The page a fetch attempt returns does not depend on the jitter
stream: the jitter only enters the backoff sleep events. -/
theorem getPageGo_fst_jitter_irrel {α : Type} (resp : Nat → AttemptResult α)
    (j1 j2 : Nat → Rat) (page rc : Nat) :
    ∀ l : List Nat,
      (getPageGo resp j1 page rc l).1 = (getPageGo resp j2 page rc l).1 := by
  intro l
  induction l with
  | nil => rfl
  | cons a rest ih =>
    cases hr : resp a with
    | success s => simp [getPageGo, hr]
    | httpError c =>
      by_cases hlt : a < rc - 1 <;> simp [getPageGo, hr, hlt, ih]
    | transportError =>
      by_cases hlt : a < rc - 1 <;> simp [getPageGo, hr, hlt, ih]

/-- Every event of one `get_page` call is a fetch attempt tagged with its
own page or a backoff sleep. -/
theorem getPageGo_trace_tags {α : Type} (resp : Nat → AttemptResult α)
    (jitter : Nat → Rat) (page rc : Nat) :
    ∀ (l : List Nat) (e : Event), e ∈ (getPageGo resp jitter page rc l).2 →
      (∃ a, e = Event.fetchAttempt page a) ∨ ∃ d, e = Event.backoffSleep d := by
  intro l
  induction l with
  | nil => intro e he; simp [getPageGo] at he
  | cons a rest ih =>
    intro e he
    cases hr : resp a with
    | success s =>
      simp [getPageGo, hr] at he
      exact Or.inl ⟨a, he⟩
    | httpError c =>
      by_cases hlt : a < rc - 1
      · simp only [getPageGo, hr, hlt, if_true, if_pos, List.mem_cons] at he
        rcases he with he | he | he
        · exact Or.inl ⟨a, he⟩
        · exact Or.inr ⟨_, he⟩
        · exact ih e he
      · simp only [getPageGo, hr, hlt, if_false, if_neg, not_false_iff,
          List.mem_cons] at he
        rcases he with he | he
        · exact Or.inl ⟨a, he⟩
        · exact ih e he
    | transportError =>
      by_cases hlt : a < rc - 1
      · simp only [getPageGo, hr, hlt, if_true, if_pos, List.mem_cons] at he
        rcases he with he | he | he
        · exact Or.inl ⟨a, he⟩
        · exact Or.inr ⟨_, he⟩
        · exact ih e he
      · simp only [getPageGo, hr, hlt, if_false, if_neg, not_false_iff,
          List.mem_cons] at he
        rcases he with he | he
        · exact Or.inl ⟨a, he⟩
        · exact ih e he

/-- A `get_page` call's trace starts with its attempt-0 fetch event. -/
theorem get_page_trace_head {α : Type} (resp : Nat → AttemptResult α)
    (jitter : Nat → Rat) (page : Nat) :
    ∃ t, (get_page resp jitter page).2 = Event.fetchAttempt page 0 :: t := by
  have hr : List.range 3 = [0, 1, 2] := rfl
  cases h0 : resp 0 with
  | success s => exact ⟨[], by simp [get_page, hr, getPageGo, h0]⟩
  | httpError c =>
    exact ⟨Event.backoffSleep (sleepTime 0 (jitter 0)) ::
      (getPageGo resp jitter page 3 [1, 2]).2,
      by simp [get_page, hr, getPageGo, h0]⟩
  | transportError =>
    exact ⟨Event.backoffSleep (sleepTime 0 (jitter 0)) ::
      (getPageGo resp jitter page 3 [1, 2]).2,
      by simp [get_page, hr, getPageGo, h0]⟩

/-- The trace of the page loop at a non-exhausted iterator list starts
with the attempt-0 fetch of its first page. -/
theorem scrapeSearchGo_trace_head (uj : String → String → String)
    (base : String) (resp : Nat → Nat → AttemptResult (List Item))
    (jitter : Nat → Nat → Rat) (prand : Nat → Rat) (pages page : Nat)
    (rest : List Nat) (acc : List ResultData) :
    ∃ t, (scrapeSearchGo uj base resp jitter prand pages (page :: rest) acc).2
      = Event.fetchAttempt page 0 :: t := by
  obtain ⟨t0, ht0⟩ := get_page_trace_head (resp page) (jitter page) page
  cases hgp : (get_page (resp page) (jitter page) page).1 with
  | none => exact ⟨t0, by simp only [scrapeSearchGo, hgp, ht0]⟩
  | some items =>
    by_cases hie : items.isEmpty
    · exact ⟨t0, by simp only [scrapeSearchGo, hgp, hie, if_true, if_pos, ht0]⟩
    · by_cases hpp : page < pages
      · refine ⟨t0 ++ Event.politenessSleep (prand page) ::
          (scrapeSearchGo uj base resp jitter prand pages rest
            (acc ++ items.filterMap (extractItem uj base))).2, ?_⟩
        simp only [scrapeSearchGo, hgp, hie, hpp, if_true, if_pos, if_false,
          if_neg, not_false_iff, ht0, List.cons_append]
        simp
      · refine ⟨t0 ++ (scrapeSearchGo uj base resp jitter prand pages rest
          (acc ++ items.filterMap (extractItem uj base))).2, ?_⟩
        simp only [scrapeSearchGo, hgp, hie, hpp, if_false, if_neg,
          not_false_iff, ht0, List.cons_append]
        simp

/-- The records a page-loop run returns do not depend on the backoff
jitter stream or on the politeness-delay stream. -/
theorem scrapeSearchGo_fst_rand_irrel (uj : String → String → String)
    (base : String) (resp : Nat → Nat → AttemptResult (List Item))
    (j1 j2 : Nat → Nat → Rat) (p1 p2 : Nat → Rat) (pages : Nat) :
    ∀ (l : List Nat) (acc : List ResultData),
      (scrapeSearchGo uj base resp j1 p1 pages l acc).1
        = (scrapeSearchGo uj base resp j2 p2 pages l acc).1 := by
  intro l
  induction l with
  | nil => intro acc; rfl
  | cons page rest ih =>
    intro acc
    have hfst : (get_page (resp page) (j1 page) page).1
        = (get_page (resp page) (j2 page) page).1 :=
      getPageGo_fst_jitter_irrel (resp page) (j1 page) (j2 page) page 3
        (List.range 3)
    cases hgp : (get_page (resp page) (j2 page) page).1 with
    | none =>
      simp only [scrapeSearchGo, hfst.trans hgp, hgp]
    | some items =>
      by_cases hie : items.isEmpty
      · simp only [scrapeSearchGo, hfst.trans hgp, hgp, hie, if_true, if_pos]
      · by_cases hpp : page < pages
        · simp only [scrapeSearchGo, hfst.trans hgp, hgp, hie, hpp]
          simp [ih]
        · simp only [scrapeSearchGo, hfst.trans hgp, hgp, hie, hpp]
          simp [ih]

/-! ## C8 -/

/-- C8: two runs of the pipeline against the same response oracles yield
the same record sequence whatever values the jittered delays take: the
backoff jitter and the politeness sample influence only the timing trace,
never the extracted output, for the paginated search run and for the
homepage run alike. -/
theorem records_independent_of_sampled_delays (uj : String → String → String)
    (base : String) (resp : Nat → Nat → AttemptResult (List Item))
    (hresp : Nat → AttemptResult (List Card)) (pages : Nat)
    (j1 j2 : Nat → Nat → Rat) (p1 p2 : Nat → Rat) (hj1 hj2 : Nat → Rat) :
    (scrape_search_results uj base resp j1 p1 pages).1
      = (scrape_search_results uj base resp j2 p2 pages).1 ∧
    scrape_leakix_homepage uj base hresp hj1
      = scrape_leakix_homepage uj base hresp hj2 := by
  constructor
  · exact scrapeSearchGo_fst_rand_irrel uj base resp j1 j2 p1 p2 pages
      (List.range' 1 pages) []
  · unfold LeakIX.scrape_leakix_homepage
    rw [show (get_page hresp hj1 0).1 = (get_page hresp hj2 0).1 from
      getPageGo_fst_jitter_irrel hresp hj1 hj2 0 3 (List.range 3)]

/-! ## C4 -/

/-- Records accumulated by the page loop when every page before `p`
succeeds with a non-empty item list and the fetch of page `p` fails: the
loop returns the accumulator plus exactly the records of the pages before
`p`. -/
theorem scrapeSearchGo_records_until_failure (uj : String → String → String)
    (base : String) (resp : Nat → Nat → AttemptResult (List Item))
    (jitter : Nat → Nat → Rat) (prand : Nat → Rat) (pages p : Nat)
    (items : Nat → List Item)
    (hsucc : ∀ q, 1 ≤ q → q < p →
      (get_page (resp q) (jitter q) q).1 = some (items q) ∧ items q ≠ [])
    (hfail : (get_page (resp p) (jitter p) p).1 = none)
    (hp : p ≤ pages) :
    ∀ n q acc, q + n = p → 1 ≤ q →
      (scrapeSearchGo uj base resp jitter prand pages
        (List.range' q (pages + 1 - q)) acc).1 =
      acc ++ ((List.range' q n).map
        (fun i => (items i).filterMap (extractItem uj base))).flatten := by
  intro n
  induction n with
  | zero =>
    intro q acc hq _
    have hqp : q = p := by omega
    subst hqp
    have e1 : pages + 1 - q = (pages - q) + 1 := by omega
    rw [e1, List.range'_succ]
    simp only [scrapeSearchGo, hfail]
    simp
  | succ n ih =>
    intro q acc hq h1q
    have hqp : q < p := by omega
    have e1 : pages + 1 - q = (pages - q) + 1 := by omega
    rw [e1, List.range'_succ]
    obtain ⟨hgq, hneq⟩ := hsucc q h1q hqp
    have hie : (items q).isEmpty = false := List.isEmpty_eq_false.mpr hneq
    have e2 : pages - q = pages + 1 - (q + 1) := by omega
    have hrec := ih (q + 1) (acc ++ (items q).filterMap (extractItem uj base))
      (by omega) (by omega)
    rw [e2] at *
    by_cases hpp : q < pages
    · simp only [scrapeSearchGo, hgq, hie, hpp, if_true, if_pos,
        Bool.false_eq_true, if_false, hrec, List.range'_succ, List.map_cons,
        List.flatten_cons, List.append_assoc]
    · omega

/-- C4: a failure never discards earlier extracted records.  For the
paginated search run, when pages `1..p-1` succeed with records and the
fetch of page `p` is exhausted, the run returns exactly the records
extracted before the failure; for the tweet search, a run ending in the
rate-limit abort or in the terminal-error break returns exactly the
tweets accumulated before that point (none, since a successful request
ends the run). -/
theorem failure_keeps_earlier_records (uj : String → String → String)
    (base : String) (resp : Nat → Nat → AttemptResult (List Item))
    (jitter : Nat → Nat → Rat) (prand : Nat → Rat) (pages p : Nat)
    (items : Nat → List Item) (tresp : Nat → Outcome)
    (hp : 1 ≤ p) (hpages : p ≤ pages)
    (hsucc : ∀ q, 1 ≤ q → q < p →
      (get_page (resp q) (jitter q) q).1 = some (items q) ∧ items q ≠ [])
    (hfail : (get_page (resp p) (jitter p) p).1 = none) :
    (scrape_search_results uj base resp jitter prand pages).1 =
      ((List.range' 1 (p - 1)).map
        (fun i => (items i).filterMap (extractItem uj base))).flatten ∧
    ((Twitter.search_tweets tresp).2.2 = Status.rateLimitAborted ∨
      (Twitter.search_tweets tresp).2.2 = Status.errorAborted →
      (Twitter.search_tweets tresp).1 = []) := by
  constructor
  · have h := scrapeSearchGo_records_until_failure uj base resp jitter prand
      pages p items hsucc hfail hpages (p - 1) 1 [] (by omega) (by omega)
    have e1 : pages + 1 - 1 = pages := by omega
    rw [e1] at h
    simpa [scrape_search_results] using h
  · exact searchTweetsGo_abort_keeps_tweets tresp 5 6 0 0 60 []

/-- C4 witness: three pages requested, page 1 succeeds with one item,
every attempt at page 2 fails, and a rate-limited tweet run; the output is
exactly page 1's records, and the aborted tweet run returns nothing. -/
theorem failure_keeps_earlier_records_witness :
    (scrape_search_results (fun b r => String.append b r) "B"
      (fun pg _ => if pg = 1
        then AttemptResult.success [⟨some "t", none, none, []⟩]
        else AttemptResult.transportError)
      (fun _ _ => 0) (fun _ => 3) 3).1 =
      ((List.range' 1 (2 - 1)).map
        (fun _ => ([⟨some "t", none, none, []⟩] : List Item).filterMap
          (extractItem (fun b r => String.append b r) "B"))).flatten ∧
    ((Twitter.search_tweets (fun _ => Outcome.tooManyRequests)).2.2
        = Status.rateLimitAborted ∨
      (Twitter.search_tweets (fun _ => Outcome.tooManyRequests)).2.2
        = Status.errorAborted →
      (Twitter.search_tweets (fun _ => Outcome.tooManyRequests)).1 = []) :=
  failure_keeps_earlier_records (fun b r => String.append b r) "B"
    (fun pg _ => if pg = 1
      then AttemptResult.success [⟨some "t", none, none, []⟩]
      else AttemptResult.transportError)
    (fun _ _ => 0) (fun _ => 3) 3 2
    (fun _ => [⟨some "t", none, none, []⟩])
    (fun _ => Outcome.tooManyRequests)
    (by omega) (by omega)
    (fun q h1 h2 => by
      have hq : q = 1 := by omega
      subst hq
      exact ⟨rfl, List.cons_ne_nil _ _⟩)
    rfl

/-- One-step unfolding of the page loop at a cons iterator list, with the
lets inlined, for controlled rewriting. -/
theorem scrapeSearchGo_cons (uj : String → String → String) (base : String)
    (resp : Nat → Nat → AttemptResult (List Item)) (jitter : Nat → Nat → Rat)
    (prand : Nat → Rat) (pages page : Nat) (rest : List Nat)
    (acc : List ResultData) :
    scrapeSearchGo uj base resp jitter prand pages (page :: rest) acc =
      match (get_page (resp page) (jitter page) page).1 with
      | none => (acc, (get_page (resp page) (jitter page) page).2)
      | some items =>
        if items.isEmpty then
          (acc, (get_page (resp page) (jitter page) page).2)
        else
          if page < pages then
            ((scrapeSearchGo uj base resp jitter prand pages rest
                (acc ++ items.filterMap (extractItem uj base))).1,
             (get_page (resp page) (jitter page) page).2 ++
               Event.politenessSleep (prand page) ::
                 (scrapeSearchGo uj base resp jitter prand pages rest
                   (acc ++ items.filterMap (extractItem uj base))).2)
          else
            ((scrapeSearchGo uj base resp jitter prand pages rest
                (acc ++ items.filterMap (extractItem uj base))).1,
             (get_page (resp page) (jitter page) page).2 ++
               (scrapeSearchGo uj base resp jitter prand pages rest
                 (acc ++ items.filterMap (extractItem uj base))).2) := rfl

/-! ## C5 -/

/-- C5: in a run requesting at least 3 pages where page 1 succeeds with
records and page 2 returns an empty result set, the output is exactly
page 1's records and no fetch attempt for page 3 (or any later page 3
attempt) ever appears in the trace: the empty result set breaks the page
loop before page 3 is requested. -/
theorem empty_page_ends_run_before_next_fetch (uj : String → String → String)
    (base : String) (resp : Nat → Nat → AttemptResult (List Item))
    (jitter : Nat → Nat → Rat) (prand : Nat → Rat) (pages : Nat)
    (items1 : List Item) (hpages : 3 ≤ pages)
    (h1 : (get_page (resp 1) (jitter 1) 1).1 = some items1)
    (hne : items1 ≠ [])
    (h2 : (get_page (resp 2) (jitter 2) 2).1 = some []) :
    (scrape_search_results uj base resp jitter prand pages).1 =
      items1.filterMap (extractItem uj base) ∧
    ∀ k, Event.fetchAttempt 3 k ∉
      (scrape_search_results uj base resp jitter prand pages).2 := by
  have hie : items1.isEmpty = false := List.isEmpty_eq_false.mpr hne
  have h1p : 1 < pages := by omega
  obtain ⟨m, hm⟩ : ∃ m, pages = m + 3 := ⟨pages - 3, by omega⟩
  have hr : List.range' 1 pages = 1 :: 2 :: List.range' 3 (m + 1) := by
    have e1 : pages = (m + 2) + 1 := by omega
    have e2 : m + 2 = (m + 1) + 1 := by omega
    rw [e1, List.range'_succ, e2, List.range'_succ]
  have step2 : scrapeSearchGo uj base resp jitter prand pages
      (2 :: List.range' 3 (m + 1)) (items1.filterMap (extractItem uj base)) =
      (items1.filterMap (extractItem uj base),
        (get_page (resp 2) (jitter 2) 2).2) := by
    rw [scrapeSearchGo_cons, h2]
    rfl
  have step1 : scrapeSearchGo uj base resp jitter prand pages
      (1 :: 2 :: List.range' 3 (m + 1)) [] =
      (items1.filterMap (extractItem uj base),
        (get_page (resp 1) (jitter 1) 1).2 ++
          Event.politenessSleep (prand 1) ::
            (get_page (resp 2) (jitter 2) 2).2) := by
    rw [scrapeSearchGo_cons, h1]
    simp only [hie, Bool.false_eq_true, if_false, List.nil_append, h1p,
      if_true, if_pos, step2]
  have hrun : scrape_search_results uj base resp jitter prand pages =
      (items1.filterMap (extractItem uj base),
        (get_page (resp 1) (jitter 1) 1).2 ++
          Event.politenessSleep (prand 1) ::
            (get_page (resp 2) (jitter 2) 2).2) := by
    simp only [scrape_search_results]
    rw [hr]
    exact step1
  refine ⟨by rw [hrun], ?_⟩
  intro k hk
  rw [hrun] at hk
  rcases List.mem_append.mp hk with hk | hk
  · rcases getPageGo_trace_tags (resp 1) (jitter 1) 1 3 (List.range 3)
      _ hk with ⟨a, ha⟩ | ⟨d, hd⟩
    · rw [Event.fetchAttempt.injEq] at ha
      omega
    · exact Event.noConfusion hd
  · rcases List.mem_cons.mp hk with hk | hk
    · exact Event.noConfusion hk
    · rcases getPageGo_trace_tags (resp 2) (jitter 2) 2 3 (List.range 3)
        _ hk with ⟨a, ha⟩ | ⟨d, hd⟩
      · rw [Event.fetchAttempt.injEq] at ha
        omega
      · exact Event.noConfusion hd

/-- C5 witness: 3 pages requested, page 1 returns one item, page 2 is
empty; the run yields page 1's records and no page-3 fetch appears. -/
theorem empty_page_ends_run_before_next_fetch_witness :
    (scrape_search_results (fun b r => String.append b r) "B"
      (fun pg _ => if pg = 2 then AttemptResult.success []
        else AttemptResult.success [⟨some "t", none, none, []⟩])
      (fun _ _ => 0) (fun _ => 3) 3).1 =
      ([⟨some "t", none, none, []⟩] : List Item).filterMap
        (extractItem (fun b r => String.append b r) "B") ∧
    ∀ k, Event.fetchAttempt 3 k ∉
      (scrape_search_results (fun b r => String.append b r) "B"
        (fun pg _ => if pg = 2 then AttemptResult.success []
          else AttemptResult.success [⟨some "t", none, none, []⟩])
        (fun _ _ => 0) (fun _ => 3) 3).2 :=
  empty_page_ends_run_before_next_fetch (fun b r => String.append b r) "B"
    (fun pg _ => if pg = 2 then AttemptResult.success []
      else AttemptResult.success [⟨some "t", none, none, []⟩])
    (fun _ _ => 0) (fun _ => 3) 3 [⟨some "t", none, none, []⟩]
    (by omega) rfl (List.cons_ne_nil _ _) rfl

/-! ## C7 -/

/-- Whenever the trace of a page-loop run over the pages from `q` on
contains the first fetch attempt of page `p + 1` (with `q ≤ p`), that
fetch is immediately preceded in the trace by the politeness sleep drawn
for page `p`. -/
theorem scrapeSearchGo_polite_decomp (uj : String → String → String)
    (base : String) (resp : Nat → Nat → AttemptResult (List Item))
    (jitter : Nat → Nat → Rat) (prand : Nat → Rat) (pages p : Nat) :
    ∀ n q acc, q + n = p → 1 ≤ q →
      Event.fetchAttempt (p + 1) 0 ∈
        (scrapeSearchGo uj base resp jitter prand pages
          (List.range' q (pages + 1 - q)) acc).2 →
      ∃ pre post,
        (scrapeSearchGo uj base resp jitter prand pages
          (List.range' q (pages + 1 - q)) acc).2 =
        pre ++ Event.politenessSleep (prand p) ::
          Event.fetchAttempt (p + 1) 0 :: post := by
  intro n
  induction n with
  | zero =>
    intro q acc hq h1q hmem
    have hqp : q = p := by omega
    subst hqp
    by_cases hqpg : q ≤ pages
    · have e1 : pages + 1 - q = (pages - q) + 1 := by omega
      rw [e1, List.range'_succ] at hmem ⊢
      rw [scrapeSearchGo_cons] at hmem ⊢
      cases hgp : (get_page (resp q) (jitter q) q).1 with
      | none =>
        simp only [hgp] at hmem
        rcases getPageGo_trace_tags (resp q) (jitter q) q 3 (List.range 3)
          _ hmem with ⟨a, ha⟩ | ⟨d, hd⟩
        · rw [Event.fetchAttempt.injEq] at ha
          omega
        · exact Event.noConfusion hd
      | some items =>
        by_cases hie : items.isEmpty = true
        · simp only [hgp] at hmem
          rw [if_pos hie] at hmem
          rcases getPageGo_trace_tags (resp q) (jitter q) q 3 (List.range 3)
            _ hmem with ⟨a, ha⟩ | ⟨d, hd⟩
          · rw [Event.fetchAttempt.injEq] at ha
            omega
          · exact Event.noConfusion hd
        · by_cases hpp : q < pages
          · simp only [hgp] at hmem ⊢
            rw [if_neg hie, if_pos hpp] at hmem ⊢
            have e2 : pages - q = (pages - q - 1) + 1 := by omega
            rw [e2, List.range'_succ]
            obtain ⟨t, ht⟩ := scrapeSearchGo_trace_head uj base resp jitter
              prand pages (q + 1) (List.range' (q + 1 + 1) (pages - q - 1))
              (acc ++ items.filterMap (extractItem uj base))
            rw [ht]
            exact ⟨(get_page (resp q) (jitter q) q).2, t, rfl⟩
          · simp only [hgp] at hmem
            rw [if_neg hie, if_neg hpp] at hmem
            have e0 : pages - q = 0 := by omega
            rw [e0, List.range'_zero] at hmem
            simp only [scrapeSearchGo, List.append_nil] at hmem
            rcases getPageGo_trace_tags (resp q) (jitter q) q 3 (List.range 3)
              _ hmem with ⟨a, ha⟩ | ⟨d, hd⟩
            · rw [Event.fetchAttempt.injEq] at ha
              omega
            · exact Event.noConfusion hd
    · have e0 : pages + 1 - q = 0 := by omega
      rw [e0, List.range'_zero] at hmem
      simp only [scrapeSearchGo] at hmem
      exact absurd hmem (List.not_mem_nil _)
  | succ n ih =>
    intro q acc hq h1q hmem
    have hqp : q < p := by omega
    by_cases hqpg : q ≤ pages
    · have e1 : pages + 1 - q = (pages - q) + 1 := by omega
      rw [e1, List.range'_succ] at hmem ⊢
      rw [scrapeSearchGo_cons] at hmem ⊢
      cases hgp : (get_page (resp q) (jitter q) q).1 with
      | none =>
        simp only [hgp] at hmem
        rcases getPageGo_trace_tags (resp q) (jitter q) q 3 (List.range 3)
          _ hmem with ⟨a, ha⟩ | ⟨d, hd⟩
        · rw [Event.fetchAttempt.injEq] at ha
          omega
        · exact Event.noConfusion hd
      | some items =>
        by_cases hie : items.isEmpty = true
        · simp only [hgp] at hmem
          rw [if_pos hie] at hmem
          rcases getPageGo_trace_tags (resp q) (jitter q) q 3 (List.range 3)
            _ hmem with ⟨a, ha⟩ | ⟨d, hd⟩
          · rw [Event.fetchAttempt.injEq] at ha
            omega
          · exact Event.noConfusion hd
        · by_cases hpp : q < pages
          · simp only [hgp] at hmem ⊢
            rw [if_neg hie, if_pos hpp] at hmem ⊢
            have e2 : pages - q = pages + 1 - (q + 1) := by omega
            rw [e2] at hmem ⊢
            rcases List.mem_append.mp hmem with hm1 | hm1
            · rcases getPageGo_trace_tags (resp q) (jitter q) q 3
                (List.range 3) _ hm1 with ⟨a, ha⟩ | ⟨d, hd⟩
              · rw [Event.fetchAttempt.injEq] at ha
                omega
              · exact Event.noConfusion hd
            · rcases List.mem_cons.mp hm1 with hm2 | hm2
              · exact Event.noConfusion hm2
              · obtain ⟨pre2, post2, hdec⟩ := ih (q + 1)
                  (acc ++ items.filterMap (extractItem uj base))
                  (by omega) (by omega) hm2
                rw [hdec]
                refine ⟨(get_page (resp q) (jitter q) q).2 ++
                  Event.politenessSleep (prand q) :: pre2, post2, ?_⟩
                simp [List.append_assoc]
          · simp only [hgp] at hmem
            rw [if_neg hie, if_neg hpp] at hmem
            have e0 : pages - q = 0 := by omega
            rw [e0, List.range'_zero] at hmem
            simp only [scrapeSearchGo, List.append_nil] at hmem
            rcases getPageGo_trace_tags (resp q) (jitter q) q 3 (List.range 3)
              _ hmem with ⟨a, ha⟩ | ⟨d, hd⟩
            · rw [Event.fetchAttempt.injEq] at ha
              omega
            · exact Event.noConfusion hd
    · have e0 : pages + 1 - q = 0 := by omega
      rw [e0, List.range'_zero] at hmem
      simp only [scrapeSearchGo] at hmem
      exact absurd hmem (List.not_mem_nil _)

/-- C7: the politeness delay is never skipped.  Whenever a paginated run
fetches page `p + 1` (for any page `p ≥ 1` it pulled before), the trace
shows the politeness sleep drawn for page `p` immediately before that
fetch, and its duration lies in the configured range from 2 to 5
seconds. -/
theorem politeness_sleep_precedes_next_page_fetch
    (uj : String → String → String) (base : String)
    (resp : Nat → Nat → AttemptResult (List Item)) (jitter : Nat → Nat → Rat)
    (prand : Nat → Rat) (pages p : Nat)
    (hpr : ∀ i, 2 ≤ prand i ∧ prand i < 5) (hp : 1 ≤ p)
    (hmem : Event.fetchAttempt (p + 1) 0 ∈
      (scrape_search_results uj base resp jitter prand pages).2) :
    (2 ≤ prand p ∧ prand p < 5) ∧
    ∃ pre post, (scrape_search_results uj base resp jitter prand pages).2 =
      pre ++ Event.politenessSleep (prand p) ::
        Event.fetchAttempt (p + 1) 0 :: post := by
  refine ⟨hpr p, ?_⟩
  have e : pages + 1 - 1 = pages := by omega
  have hmem2 : Event.fetchAttempt (p + 1) 0 ∈
      (scrapeSearchGo uj base resp jitter prand pages
        (List.range' 1 (pages + 1 - 1)) []).2 := by
    rw [e]
    exact hmem
  have h := scrapeSearchGo_polite_decomp uj base resp jitter prand pages p
    (p - 1) 1 [] (by omega) (by omega) hmem2
  rw [e] at h
  exact h

/-- C7 witness: a two-page run with every page succeeding; the fetch of
page 2 appears in the trace and is immediately preceded by the politeness
sleep of 2 seconds drawn after page 1. -/
theorem politeness_sleep_precedes_next_page_fetch_witness :
    (2 ≤ ((fun _ => (2 : Rat)) 1) ∧ ((fun _ => (2 : Rat)) 1) < 5) ∧
    ∃ pre post,
      (scrape_search_results (fun b r => String.append b r) "B"
        (fun _ _ => AttemptResult.success [⟨some "t", none, none, []⟩])
        (fun _ _ => 0) (fun _ => 2) 2).2 =
      pre ++ Event.politenessSleep ((fun _ => (2 : Rat)) 1) ::
        Event.fetchAttempt (1 + 1) 0 :: post :=
  politeness_sleep_precedes_next_page_fetch (fun b r => String.append b r)
    "B" (fun _ _ => AttemptResult.success [⟨some "t", none, none, []⟩])
    (fun _ _ => 0) (fun _ => 2) 2 1
    (fun _ => ⟨by norm_num, by norm_num⟩) (Nat.le_refl 1)
    (by simp [scrape_search_results, scrapeSearchGo, get_page, getPageGo,
      List.range', List.range])

/-! ## C10 -/

/-- Every entry of a dict after an assignment is the assigned pair or an
entry that was already present. -/
theorem dictInsert_mem_elim (d : List (String × String)) (k v : String)
    (pr : String × String) (hp : pr ∈ dictInsert d k v) :
    pr = (k, v) ∨ pr ∈ d := by
  unfold LeakIX.dictInsert at hp
  by_cases h : d.any (fun q => q.1 == k) = true
  · rw [if_pos h] at hp
    rcases List.mem_map.mp hp with ⟨q, hq, hfq⟩
    by_cases hqk : (q.1 == k) = true
    · rw [if_pos hqk] at hfq
      exact Or.inl hfq.symm
    · rw [if_neg hqk] at hfq
      rw [← hfq]
      exact Or.inr hq
  · rw [if_neg h] at hp
    rcases List.mem_append.mp hp with h1 | h1
    · exact Or.inr h1
    · exact Or.inl (List.mem_singleton.mp h1)

/-- A key is present after a dict assignment exactly when it is the
assigned key or was present before. -/
theorem dictInsert_exists_key_iff (d : List (String × String))
    (k v k0 : String) :
    (∃ v0, (k0, v0) ∈ dictInsert d k v) ↔
      k0 = k ∨ ∃ v0, (k0, v0) ∈ d := by
  constructor
  · rintro ⟨v0, h0⟩
    rcases dictInsert_mem_elim d k v (k0, v0) h0 with h1 | h1
    · exact Or.inl (congrArg Prod.fst h1)
    · exact Or.inr ⟨v0, h1⟩
  · intro h0
    unfold LeakIX.dictInsert
    by_cases h : d.any (fun q => q.1 == k) = true
    · rw [if_pos h]
      rcases h0 with h0 | ⟨v0, h0⟩
      · subst h0
        rcases List.any_eq_true.mp h with ⟨q, hq, hqk⟩
        refine ⟨v, List.mem_map.mpr ⟨q, hq, ?_⟩⟩
        rw [if_pos hqk]
      · by_cases hkk : k0 = k
        · subst hkk
          rcases List.any_eq_true.mp h with ⟨q, hq, hqk⟩
          refine ⟨v, List.mem_map.mpr ⟨q, hq, ?_⟩⟩
          rw [if_pos hqk]
        · refine ⟨v0, List.mem_map.mpr ⟨(k0, v0), h0, ?_⟩⟩
          rw [if_neg]
          simp [hkk]
    · rw [if_neg h]
      rcases h0 with h0 | ⟨v0, h0⟩
      · subst h0
        exact ⟨v, List.mem_append.mpr (Or.inr (List.mem_singleton.mpr rfl))⟩
      · exact ⟨v0, List.mem_append.mpr (Or.inl h0)⟩

/-- Provenance of the `_extract_details` fold: every entry is either an
accumulator entry or the stripped key-value pair of some detail item with
both sub-elements present. -/
theorem extractDetails_fold_mem (items : List DetailItem) :
    ∀ (acc : List (String × String)) (pr : String × String),
      pr ∈ items.foldl
        (fun details d =>
          match d.key, d.val with
          | some kt, some vt => dictInsert details kt.trim vt.trim
          | _, _ => details) acc →
      pr ∈ acc ∨ ∃ d ∈ items, ∃ kt vt,
        d.key = some kt ∧ d.val = some vt ∧ kt.trim = pr.1 ∧ vt.trim = pr.2 := by
  induction items with
  | nil => intro acc pr hp; exact Or.inl hp
  | cons d rest ih =>
    intro acc pr hp
    rw [List.foldl_cons] at hp
    rcases ih _ pr hp with h1 | ⟨d1, hd1, kt, vt, hk, hv, hkt, hvt⟩
    · cases hdk : d.key with
      | none =>
        rw [hdk] at h1
        exact Or.inl h1
      | some kt =>
        cases hdv : d.val with
        | none =>
          rw [hdk, hdv] at h1
          exact Or.inl h1
        | some vt =>
          rw [hdk, hdv] at h1
          rcases dictInsert_mem_elim _ _ _ pr h1 with h2 | h2
          · subst h2
            exact Or.inr ⟨d, List.mem_cons_self d rest, kt, vt, hdk, hdv,
              rfl, rfl⟩
          · exact Or.inl h2
    · exact Or.inr ⟨d1, List.mem_cons_of_mem d hd1, kt, vt, hk, hv, hkt, hvt⟩

/-- Key membership for the `_extract_details` fold: a key appears exactly
when it is an accumulator key or the stripped key of a detail item with
both sub-elements present. -/
theorem extractDetails_fold_key_iff (items : List DetailItem) :
    ∀ (acc : List (String × String)) (k : String),
      (∃ v, (k, v) ∈ items.foldl
        (fun details d =>
          match d.key, d.val with
          | some kt, some vt => dictInsert details kt.trim vt.trim
          | _, _ => details) acc) ↔
      (∃ v, (k, v) ∈ acc) ∨ ∃ d ∈ items, ∃ kt vt,
        d.key = some kt ∧ d.val = some vt ∧ kt.trim = k := by
  induction items with
  | nil => intro acc k; simp
  | cons d rest ih =>
    intro acc k
    rw [List.foldl_cons, ih]
    cases hdk : d.key with
    | none =>
      constructor
      · rintro (h1 | h1)
        · exact Or.inl h1
        · exact Or.inr (by
            rcases h1 with ⟨d1, hd1, w⟩
            exact ⟨d1, List.mem_cons_of_mem d hd1, w⟩)
      · rintro (h1 | ⟨d1, hd1, kt, vt, hk, hv, hkt⟩)
        · exact Or.inl h1
        · rcases List.mem_cons.mp hd1 with h2 | h2
          · subst h2
            rw [hdk] at hk
            exact Option.noConfusion hk
          · exact Or.inr ⟨d1, h2, kt, vt, hk, hv, hkt⟩
    | some kt0 =>
      cases hdv : d.val with
      | none =>
        constructor
        · rintro (h1 | h1)
          · exact Or.inl h1
          · exact Or.inr (by
              rcases h1 with ⟨d1, hd1, w⟩
              exact ⟨d1, List.mem_cons_of_mem d hd1, w⟩)
        · rintro (h1 | ⟨d1, hd1, kt, vt, hk, hv, hkt⟩)
          · exact Or.inl h1
          · rcases List.mem_cons.mp hd1 with h2 | h2
            · subst h2
              rw [hdv] at hv
              exact Option.noConfusion hv
            · exact Or.inr ⟨d1, h2, kt, vt, hk, hv, hkt⟩
      | some vt0 =>
        rw [dictInsert_exists_key_iff]
        constructor
        · rintro ((h1 | h1) | h1)
          · exact Or.inr ⟨d, List.mem_cons_self d rest, kt0, vt0, hdk, hdv,
              h1.symm⟩
          · exact Or.inl h1
          · exact Or.inr (by
              rcases h1 with ⟨d1, hd1, w⟩
              exact ⟨d1, List.mem_cons_of_mem d hd1, w⟩)
        · rintro (h1 | ⟨d1, hd1, kt, vt, hk, hv, hkt⟩)
          · exact Or.inl (Or.inr h1)
          · rcases List.mem_cons.mp hd1 with h2 | h2
            · subst h2
              rw [hdk] at hk
              rw [hdv] at hv
              refine Or.inl (Or.inl ?_)
              rw [← hkt, Option.some.inj hk]
            · exact Or.inr ⟨d1, h2, kt, vt, hk, hv, hkt⟩

/-- C10: the details dictionary holds an entry under a key exactly when
some detail item has both its key and its value sub-element present with
that (stripped) key text, and every entry it holds carries the stripped
key and value texts of such an item: an item missing either sub-element
contributes nothing, never an error and never a partial entry. -/
theorem extract_details_pairs_iff_both_present (items : List DetailItem)
    (k : String) :
    ((∃ v, (k, v) ∈ extractDetails items) ↔
      ∃ d ∈ items, ∃ kt vt,
        d.key = some kt ∧ d.val = some vt ∧ kt.trim = k) ∧
    (∀ pr ∈ extractDetails items, ∃ d ∈ items, ∃ kt vt,
      d.key = some kt ∧ d.val = some vt ∧
        kt.trim = pr.1 ∧ vt.trim = pr.2) := by
  constructor
  · have h := extractDetails_fold_key_iff items [] k
    simpa [extractDetails] using h
  · intro pr hpr
    have h := extractDetails_fold_mem items [] pr (by
      simpa [extractDetails] using hpr)
    simpa using h
